import Mathlib

/-!
Shallow embedding of the `Deep_Learning_Summer_School` notebooks:
the synthetic four-vector sampler `get_data`, the target rescaling
`scale_target`, the manual training step `train_step`, the driver
`train_loop` (all from `mass_regression_lecture5.ipynb`), and the
`FeatureScaling` custom layer (from `keras_api_solution_lecture4.ipynb`).

Random draws are modelled by explicit streams of unit-interval draws
(`np.random.uniform(lo, hi, n)` becomes `lo + (hi - lo) * u` with
`u ∈ [0,1)`) and of normal draws.  Machine floats are modelled by exact
arithmetic: the draws and the pseudorapidity loop live in `ℚ` (every
float32 value is rational), while the derived kinematic quantities that
need `sqrt`, `exp`, `arctan`, `sin`, `cos`, `π` live in `ℝ`.
-/

namespace MassRegression

/-- The pseudorandom source consumed by one call of `get_data`:
`uP`, `uM`, `uPhi` are the unit-interval draws behind the three
`np.random.uniform` calls (momentum, mass, azimuth), and `normal i k`
is the `k`-th draw of `np.random.normal(0, 2.5, _)` in iteration `i`
of the rejection loop. -/
structure RandStream where
  uP : Nat → ℚ
  uM : Nat → ℚ
  uPhi : Nat → ℚ
  normal : Nat → Nat → ℚ

/-- `np.random.uniform(lo, hi)` from one unit draw `u ∈ [0,1)`. -/
def uniform (lo hi u : ℚ) : ℚ := lo + (hi - lo) * u

/-- The mask `abs(eta) > 2.5` of the rejection loop. -/
def outOfRange (x : ℚ) : Bool := 5/2 < |x|

/-- `np.mean(abs(eta) > 2.5)`: the fraction of out-of-range entries
(`0` on the empty list, matching that the loop is not entered there). -/
def outFrac (eta : List ℚ) : ℚ := (eta.countP outOfRange : ℚ) / eta.length

/-- `eta[mask] = draws`: replace the out-of-range entries by successive
normal draws, in order; `k` counts the draws consumed so far. -/
def maskAssign : List ℚ → (Nat → ℚ) → Nat → List ℚ
  | [], _, _ => []
  | x :: xs, d, k =>
      if outOfRange x then d k :: maskAssign xs d (k + 1)
      else x :: maskAssign xs d k

/-- The rejection loop
`while np.mean(abs(eta) > 2.5) > 0.05: eta[mask] = np.random.normal(0, 2.5, ...)`
with an explicit iteration budget `fuel` (the source loop is unbounded;
every theorem below holds for every `fuel`). -/
def etaLoop : Nat → List ℚ → (Nat → Nat → ℚ) → List ℚ
  | 0, eta, _ => eta
  | fuel + 1, eta, d =>
      if outFrac eta > 5/100 then
        etaLoop fuel (maskAssign eta (d 0) 0) (fun i => d (i + 1))
      else eta

/-- The pseudorapidity vector produced inside `get_data`:
`eta = np.zeros_like(p)` followed by the rejection loop. -/
def etaOf (fuel n : Nat) (s : RandStream) : List ℚ :=
  etaLoop fuel (List.replicate n 0) s.normal

/-- The `i`-th drawn momentum magnitude `p`. -/
def pDraw (min_p max_p : ℚ) (s : RandStream) (i : Nat) : ℚ :=
  uniform min_p max_p (s.uP i)

/-- The `i`-th drawn mass `m`. -/
def mDraw (min_m max_m : ℚ) (s : RandStream) (i : Nat) : ℚ :=
  uniform min_m max_m (s.uM i)

/-- The `i`-th azimuth draw, `np.random.uniform(-math.pi, math.pi)`. -/
noncomputable def phiDraw (s : RandStream) (i : Nat) : ℝ :=
  -Real.pi + (Real.pi - -Real.pi) * (s.uPhi i : ℝ)

/-- `e = (p * p + m * m) ** 0.5`. -/
noncomputable def energy (p m : ℚ) : ℝ :=
  Real.sqrt ((p : ℝ) * p + (m : ℝ) * m)

/-- `theta = 2.0 * np.arctan(np.exp(-eta))`. -/
noncomputable def theta (eta : ℚ) : ℝ :=
  2 * Real.arctan (Real.exp (-(eta : ℝ)))

/-- `pt = p * np.cos(theta)`. -/
noncomputable def ptOf (p eta : ℚ) : ℝ := (p : ℝ) * Real.cos (theta eta)

/-- One row of the stacked output: `[e, px, py, pz]` in the Cartesian
basis, `[e, pt, eta, phi]` otherwise. -/
noncomputable def sampleRow (cartesian : Bool) (p m eta : ℚ) (phi : ℝ) :
    List ℝ :=
  if cartesian then
    [energy p m, ptOf p eta * Real.cos phi, ptOf p eta * Real.sin phi,
      (p : ℝ) * Real.sin (theta eta)]
  else
    [energy p m, ptOf p eta, (eta : ℝ), phi]

/-- `get_data(n, min_p, max_p, min_m, max_m, cartesian)`:
returns the stacked `(n, 4)` batch together with the true masses. -/
noncomputable def get_data (fuel n : Nat) (min_p max_p min_m max_m : ℚ)
    (cartesian : Bool) (s : RandStream) : List (List ℝ) × List ℚ :=
  ((List.range n).map (fun i =>
      sampleRow cartesian (pDraw min_p max_p s i) (mDraw min_m max_m s i)
        ((etaOf fuel n s).getD i 0) (phiDraw s i)),
    (List.range n).map (mDraw min_m max_m s))

/-- Entry `j` of row `i` of a stacked batch. -/
def col (rows : List (List ℝ)) (i j : Nat) : ℝ := (rows.getD i []).getD j 0

/-! `data_spec = {"min_p": 0.0, "max_p": 200.0, "min_m": 0.1, "max_m": 100.0,
"cartesian": True}` and the derived target-scaling constants. -/

def spec_min_p : ℚ := 0
def spec_max_p : ℚ := 200
def spec_min_m : ℚ := 1/10
def spec_max_m : ℚ := 100

/-- `target_mu = 0.5 * (min_m + max_m)`. -/
noncomputable def target_mu (min_m max_m : ℚ) : ℝ :=
  0.5 * ((min_m : ℝ) + (max_m : ℝ))

/-- `target_sigma = (max_m - min_m) / 12 ** 0.5`. -/
noncomputable def target_sigma (min_m max_m : ℚ) : ℝ :=
  ((max_m : ℝ) - (min_m : ℝ)) / Real.sqrt 12

/-- `scale_target(target, rescale)` with the module-level constants
`target_mu`, `target_sigma` passed explicitly. -/
noncomputable def scale_target (mu sigma : ℝ) (target : ℝ)
    (rescale : Bool) : ℝ :=
  if rescale then target * sigma + mu else (target - mu) / sigma

/-- `get_batch = functools.partial(get_data, **data_spec)`. -/
noncomputable def get_batch (fuel n : Nat) (s : RandStream) :
    List (List ℝ) × List ℚ :=
  get_data fuel n spec_min_p spec_max_p spec_min_m spec_max_m true s

/-- Mean of a list of reals (`0` on the empty list, as a modelling
convention for `np.mean`; every use below is on a nonempty list or is
accompanied by the list's length). -/
noncomputable def mean (xs : List ℝ) : ℝ := xs.sum / xs.length

/-- `loss_func(pred, truth) = tf.reduce_mean((pred - truth) ** 2.0, axis=0)`:
batch-mean of the squared errors, a scalar. -/
noncomputable def loss_func (pred truth : List ℝ) : ℝ :=
  mean (List.zipWith (fun a b => (a - b) ^ 2) pred truth)

/-- The external collaborators of the training code, as black boxes:
`fwd params training x` is `model(x, training=...)[:, 0]`,
`grad params x truth` is `tape.gradient(loss, model.trainable_variables)`,
and `applyGrads` is `optimizer.apply_gradients`, returning the updated
optimizer state and parameters. -/
structure ModelAPI (P G O : Type) where
  fwd : P → Bool → List (List ℝ) → List ℝ
  grad : P → List (List ℝ) → List ℝ → G
  applyGrads : O → P → G → O × P

/-- `train_step(x, truth, optimizer)`: forward pass under the tape,
loss, gradients, one `apply_gradients` call; returns the loss together
with the updated optimizer state and parameters.  The source's outer
`tf.reduce_mean` acts on the scalar returned by `loss_func` and is the
identity. -/
noncomputable def train_step {P G O : Type} (M : ModelAPI P G O)
    (x : List (List ℝ)) (truth : List ℝ) (opt : O) (params : P) :
    ℝ × O × P :=
  let pred := M.fwd params true x
  let loss := loss_func pred truth
  let g := M.grad params x truth
  let op := M.applyGrads opt params g
  (loss, op.1, op.2)

/-- The training phase of `train_loop`: `n_iterations` train steps, each
on a fresh batch of 64 with the mass scaled by `scale_target`;
`batches i` is the random stream of iteration `i`. -/
noncomputable def train_phase {P G O : Type} (M : ModelAPI P G O)
    (fuel : Nat) (batches : Nat → RandStream) (n_iterations : Nat)
    (opt : O) (params : P) : O × P :=
  (List.range n_iterations).foldl
    (fun st i =>
      let b := get_batch fuel 64 (batches i)
      let r := train_step M b.1
        (b.2.map (fun t =>
          scale_target (target_mu spec_min_m spec_max_m)
            (target_sigma spec_min_m spec_max_m) (t : ℝ) false))
        st.1 st.2
      r.2)
    (opt, params)

/-- `abs(rel_err) < 0.10` as a `0/1` indicator, so that
`np.mean(abs(rel_err) < 0.10)` is the mean of the indicator list. -/
noncomputable def indicatorLt (c r : ℝ) : ℝ := if |r| < c then 1 else 0

/-- The evaluation phase of `train_loop` after the training phase:
one held-out batch of 20000, inference only, rescaled predictions,
relative error and the fraction below 10 percent.  Returns
`(pred, truth, final parameters, metric)`. -/
noncomputable def train_loop {P G O : Type} (M : ModelAPI P G O)
    (fuel : Nat) (batches : Nat → RandStream) (evalStream : RandStream)
    (n_iterations : Nat) (opt : O) (params : P) :
    List ℝ × List ℚ × P × ℝ :=
  let st := train_phase M fuel batches n_iterations opt params
  let b := get_batch fuel 20000 evalStream
  let pred_raw := M.fwd st.2 false b.1
  let pred := pred_raw.map (fun y =>
    scale_target (target_mu spec_min_m spec_max_m)
      (target_sigma spec_min_m spec_max_m) y true)
  let rel_err := List.zipWith (fun pr t => (pr - (t : ℝ)) / (t : ℝ))
    pred b.2
  (pred, b.2, st.2, mean (rel_err.map (indicatorLt (1/10))))

end MassRegression

namespace KerasApi

/-- The `FeatureScaling` custom layer: `__init__` stores `means` and
`stddevs` and passes `trainable=False` to the base constructor. -/
structure FeatureScaling where
  trainable : Bool
  means : List ℚ
  stddevs : List ℚ

/-- The constructor `FeatureScaling(means, stddevs)`. -/
def FeatureScaling.init (means stddevs : List ℚ) : FeatureScaling :=
  ⟨false, means, stddevs⟩

/-- `build(input_shape)` creates no variables: the list of variables it
registers is empty. -/
def FeatureScaling.buildVars (_l : FeatureScaling) : List ℚ := []

/-- `call(x) = (x - means) / stddevs`, elementwise; the layer object
after the call is returned alongside (the Python method mutates
nothing). -/
def FeatureScaling.call (l : FeatureScaling) (x : List ℚ) :
    List ℚ × FeatureScaling :=
  (List.zipWith (fun xi ms => (xi - ms.1) / ms.2) x
    (l.means.zip l.stddevs), l)

end KerasApi

namespace MassRegression

/-- Concrete pseudorandom source: all unit draws `1/2`, all normal
draws `3`. -/
def rsA : RandStream := ⟨fun _ => 1/2, fun _ => 1/2, fun _ => 1/2, fun _ _ => 3⟩

/-- Concrete pseudorandom source differing from `rsA` only in the
normal draws. -/
def rsB : RandStream := ⟨fun _ => 1/2, fun _ => 1/2, fun _ => 1/2, fun _ _ => 7⟩

theorem countP_replicate_zero (n : Nat) :
    (List.replicate n (0 : ℚ)).countP outOfRange = 0 := by
  induction n with
  | zero => rfl
  | succ n ih =>
      simp only [List.replicate_succ, List.countP_cons, ih]
      norm_num [outOfRange]

theorem outFrac_replicate_zero (n : Nat) :
    outFrac (List.replicate n 0) = 0 := by
  simp [outFrac, countP_replicate_zero]

/-- The while-condition of the rejection loop is false on the initial
all-zero `eta`, so the loop body never executes, for any budget. -/
theorem etaLoop_replicate_zero (fuel n : Nat) (d : Nat → Nat → ℚ) :
    etaLoop fuel (List.replicate n 0) d = List.replicate n 0 := by
  cases fuel with
  | zero => rfl
  | succ fuel =>
      unfold etaLoop
      rw [if_neg]
      rw [outFrac_replicate_zero]
      norm_num

theorem etaOf_eq_replicate (fuel n : Nat) (s : RandStream) :
    etaOf fuel n s = List.replicate n 0 :=
  etaLoop_replicate_zero fuel n s.normal

theorem getD_replicate_zero (n i : Nat) :
    (List.replicate n (0 : ℚ)).getD i 0 = 0 := by
  induction n generalizing i with
  | zero => simp [List.getD]
  | succ n ih =>
      cases i with
      | zero => simp [List.replicate_succ]
      | succ i => simp [List.replicate_succ, ih i]

theorem theta_zero : theta 0 = Real.pi / 2 := by
  unfold theta
  rw [show (-((0 : ℚ) : ℝ)) = 0 by norm_num, Real.exp_zero, Real.arctan_one]
  ring

theorem ptOf_eta_zero (p : ℚ) : ptOf p 0 = 0 := by
  rw [ptOf, theta_zero, Real.cos_pi_div_two, mul_zero]

theorem sampleRow_eta_zero (p m : ℚ) (φ : ℝ) :
    sampleRow true p m 0 φ = [energy p m, 0, 0, (p : ℝ)] := by
  simp [sampleRow, ptOf_eta_zero, theta_zero, Real.sin_pi_div_two]

/-- C1, code evaluated at the failing input: with `n = 4` and any
iteration budget, the rejection loop leaves `eta` identically zero, and
two streams that differ only in their normal draws (`3` vs `7`) give
the same pseudorapidity vector — no entry is ever drawn from
`Normal(0, 2.5)`. -/
theorem eta_never_drawn_from_normal :
    etaOf 1000 4 rsA = [0, 0, 0, 0] ∧ etaOf 1000 4 rsB = [0, 0, 0, 0] ∧
    etaOf 1000 4 rsA = etaOf 1000 4 rsB := by
  refine ⟨?_, ?_, ?_⟩ <;>
    simp [etaOf_eq_replicate, List.replicate]

/-- C2: the rejection loop in `get_data` executes zero iterations for
every sample count, every bound and every iteration budget (`eta` stays
the all-zero vector, so the sampler always terminates), and in the
Cartesian basis every returned row is
`[energy p m, 0, 0, p]`: `px = py = 0` and `pz` equals the drawn
momentum magnitude. -/
theorem get_data_eta_identically_zero (fuel n : Nat)
    (min_p max_p min_m max_m : ℚ) (s : RandStream) :
    etaOf fuel n s = List.replicate n 0 ∧
    (get_data fuel n min_p max_p min_m max_m true s).1 =
      (List.range n).map (fun i =>
        [energy (pDraw min_p max_p s i) (mDraw min_m max_m s i), 0, 0,
          ((pDraw min_p max_p s i : ℝ))]) := by
  refine ⟨etaOf_eq_replicate fuel n s, ?_⟩
  unfold get_data
  refine List.map_congr_left (fun i _ => ?_)
  rw [etaOf_eq_replicate, getD_replicate_zero, sampleRow_eta_zero]

/-- C5: for every batch, the fraction of samples with `|eta| > 2.5`
(that is, `np.mean(abs(eta) > 2.5)` over the batch's pseudorapidity
vector) is at most 5 percent. -/
theorem eta_outlier_fraction_le (fuel n : Nat) (s : RandStream) :
    outFrac (etaOf fuel n s) ≤ 5/100 := by
  rw [etaOf_eq_replicate, outFrac_replicate_zero]
  norm_num

theorem get_data_row (fuel n : Nat) (min_p max_p min_m max_m : ℚ)
    (c : Bool) (s : RandStream) (i : Nat) (h : i < n) :
    (get_data fuel n min_p max_p min_m max_m c s).1.getD i [] =
      sampleRow c (pDraw min_p max_p s i) (mDraw min_m max_m s i)
        ((etaOf fuel n s).getD i 0) (phiDraw s i) := by
  unfold get_data
  simp [List.getD_eq_getElem?_getD, List.getElem?_map, List.getElem?_range h]

theorem get_data_mass (fuel n : Nat) (min_p max_p min_m max_m : ℚ)
    (c : Bool) (s : RandStream) (i : Nat) (h : i < n) :
    (get_data fuel n min_p max_p min_m max_m c s).2.getD i 0 =
      mDraw min_m max_m s i := by
  unfold get_data
  simp [List.getD_eq_getElem?_getD, List.getElem?_map, List.getElem?_range h]

/-- The momentum components of a Cartesian row sum in squares to the
drawn momentum magnitude squared, for every pseudorapidity and
azimuth. -/
theorem momentum_sq_sum (p η : ℚ) (φ : ℝ) :
    (ptOf p η * Real.cos φ) ^ 2 + (ptOf p η * Real.sin φ) ^ 2 +
      ((p : ℝ) * Real.sin (theta η)) ^ 2 = (p : ℝ) ^ 2 := by
  have h1 := Real.sin_sq_add_cos_sq φ
  have h2 := Real.sin_sq_add_cos_sq (theta η)
  unfold ptOf
  linear_combination ((p : ℝ) ^ 2 * Real.cos (theta η) ^ 2) * h1 +
    (p : ℝ) ^ 2 * h2

theorem energy_sq (p m : ℚ) : energy p m ^ 2 = (p : ℝ) ^ 2 + (m : ℝ) ^ 2 := by
  unfold energy
  rw [Real.sq_sqrt (by nlinarith [mul_self_nonneg ((p : ℝ)), mul_self_nonneg ((m : ℝ))])]
  ring

/-- C3: in the Cartesian basis, every sample of every batch satisfies
the relativistic invariant `e² − (px² + py² + pz²) = m²` with the
paired true mass `m`, and consequently
`sqrt(px² + py² + pz²) ≤ e`. -/
theorem get_data_relativistic_invariant (fuel n : Nat)
    (min_p max_p min_m max_m : ℚ) (s : RandStream) (i : Nat) (h : i < n) :
    (get_data fuel n min_p max_p min_m max_m true s).2.getD i 0 =
      mDraw min_m max_m s i ∧
    col (get_data fuel n min_p max_p min_m max_m true s).1 i 0 ^ 2 -
      (col (get_data fuel n min_p max_p min_m max_m true s).1 i 1 ^ 2 +
       col (get_data fuel n min_p max_p min_m max_m true s).1 i 2 ^ 2 +
       col (get_data fuel n min_p max_p min_m max_m true s).1 i 3 ^ 2) =
      ((mDraw min_m max_m s i : ℝ)) ^ 2 ∧
    Real.sqrt
      (col (get_data fuel n min_p max_p min_m max_m true s).1 i 1 ^ 2 +
       col (get_data fuel n min_p max_p min_m max_m true s).1 i 2 ^ 2 +
       col (get_data fuel n min_p max_p min_m max_m true s).1 i 3 ^ 2) ≤
      col (get_data fuel n min_p max_p min_m max_m true s).1 i 0 := by
  have hrow := get_data_row fuel n min_p max_p min_m max_m true s i h
  set p := pDraw min_p max_p s i
  set m := mDraw min_m max_m s i
  set η := (etaOf fuel n s).getD i 0
  set φ := phiDraw s i
  have hc : ∀ j : Nat,
      col (get_data fuel n min_p max_p min_m max_m true s).1 i j =
      (sampleRow true p m η φ).getD j 0 := by
    intro j; rw [col, hrow]
  have hsum : col (get_data fuel n min_p max_p min_m max_m true s).1 i 1 ^ 2 +
      col (get_data fuel n min_p max_p min_m max_m true s).1 i 2 ^ 2 +
      col (get_data fuel n min_p max_p min_m max_m true s).1 i 3 ^ 2 =
      (p : ℝ) ^ 2 := by
    rw [hc 1, hc 2, hc 3]
    simp only [sampleRow, if_pos]
    exact momentum_sq_sum p η φ
  have he : col (get_data fuel n min_p max_p min_m max_m true s).1 i 0 =
      energy p m := by
    rw [hc 0]; simp [sampleRow]
  refine ⟨get_data_mass fuel n min_p max_p min_m max_m true s i h, ?_, ?_⟩
  · rw [hsum, he, energy_sq]; ring
  · rw [hsum, he]
    unfold energy
    have hps : (p : ℝ) ^ 2 ≤ (p : ℝ) * p + (m : ℝ) * m := by
      nlinarith [mul_self_nonneg ((m : ℝ))]
    calc Real.sqrt ((p : ℝ) ^ 2) ≤ Real.sqrt ((p : ℝ) * p + (m : ℝ) * m) :=
          Real.sqrt_le_sqrt hps
      _ = _ := rfl

/-- C3 witness at a concrete input. -/
theorem get_data_relativistic_invariant_witness :
    (0 : Nat) < 2 ∧
    ((get_data 1 2 0 200 (1/10) 100 true rsA).2.getD 0 0 =
      mDraw (1/10) 100 rsA 0 ∧
    col (get_data 1 2 0 200 (1/10) 100 true rsA).1 0 0 ^ 2 -
      (col (get_data 1 2 0 200 (1/10) 100 true rsA).1 0 1 ^ 2 +
       col (get_data 1 2 0 200 (1/10) 100 true rsA).1 0 2 ^ 2 +
       col (get_data 1 2 0 200 (1/10) 100 true rsA).1 0 3 ^ 2) =
      ((mDraw (1/10) 100 rsA 0 : ℝ)) ^ 2 ∧
    Real.sqrt
      (col (get_data 1 2 0 200 (1/10) 100 true rsA).1 0 1 ^ 2 +
       col (get_data 1 2 0 200 (1/10) 100 true rsA).1 0 2 ^ 2 +
       col (get_data 1 2 0 200 (1/10) 100 true rsA).1 0 3 ^ 2) ≤
      col (get_data 1 2 0 200 (1/10) 100 true rsA).1 0 0) :=
  ⟨by decide,
    get_data_relativistic_invariant 1 2 0 200 (1/10) 100 rsA 0 (by decide)⟩

/-- C4: composing `scale_target` with its `rescale=True` inverse is the
identity on every real input, whenever `min_m < max_m`. -/
theorem scale_target_roundtrip (min_m max_m : ℚ) (h : (min_m : ℝ) < max_m)
    (v : ℝ) :
    scale_target (target_mu min_m max_m) (target_sigma min_m max_m)
      (scale_target (target_mu min_m max_m) (target_sigma min_m max_m) v
        false) true = v := by
  have hs : target_sigma min_m max_m ≠ 0 := by
    unfold target_sigma
    have hn : (0 : ℝ) < (max_m : ℝ) - min_m := by linarith
    have h12 : (0 : ℝ) < Real.sqrt 12 := Real.sqrt_pos.mpr (by norm_num)
    exact ne_of_gt (div_pos hn h12)
  simp only [scale_target, if_pos, if_neg, Bool.false_eq_true,
    not_false_iff, ite_true, ite_false]
  field_simp

/-- C4 witness: the round trip at `min_m = 0.1`, `max_m = 100`,
`v = 7`. -/
theorem scale_target_roundtrip_witness :
    ((spec_min_m : ℝ) < spec_max_m) ∧
    scale_target (target_mu spec_min_m spec_max_m)
      (target_sigma spec_min_m spec_max_m)
      (scale_target (target_mu spec_min_m spec_max_m)
        (target_sigma spec_min_m spec_max_m) 7 false) true = 7 :=
  ⟨by norm_num [spec_min_m, spec_max_m],
    scale_target_roundtrip spec_min_m spec_max_m
      (by norm_num [spec_min_m, spec_max_m]) 7⟩

/-- The relative-error vector of the evaluation phase, for given final
parameters: rescaled predictions against the held-out truth. -/
noncomputable def eval_rel_err {P G O : Type} (M : ModelAPI P G O)
    (fuel : Nat) (es : RandStream) (params : P) : List ℝ :=
  List.zipWith (fun pr t => (pr - (t : ℝ)) / (t : ℝ))
    ((M.fwd params false (get_batch fuel 20000 es).1).map fun y =>
      scale_target (target_mu spec_min_m spec_max_m)
        (target_sigma spec_min_m spec_max_m) y true)
    (get_batch fuel 20000 es).2

theorem indicator_sum (c : ℝ) (l : List ℝ) :
    (l.map (indicatorLt c)).sum = ((l.countP fun r => |r| < c : Nat) : ℝ) := by
  induction l with
  | nil => simp
  | cons x xs ih =>
      simp only [List.map_cons, List.sum_cons, List.countP_cons, ih,
        indicatorLt]
      by_cases h : |x| < c
      · rw [if_pos h, if_pos (by simp [h])]
        push_cast
        ring
      · rw [if_neg h, if_neg (by simp [h])]
        simp

theorem mean_indicator (c : ℝ) (l : List ℝ) :
    mean (l.map (indicatorLt c)) =
      ((l.countP fun r => |r| < c : Nat) : ℝ) / l.length := by
  unfold mean
  rw [indicator_sum, List.length_map]

theorem get_batch_mass_length (fuel n : Nat) (s : RandStream) :
    (get_batch fuel n s).2.length = n := by
  simp [get_batch, get_data]

/-- C6: the evaluation phase of `train_loop` draws one held-out batch
of 20000 samples, keeps the parameters produced by the training phase
unchanged, computes the predictions by running the model with
`training=False` on that batch and rescaling with
`scale_target(..., rescale=True)`, and reports as its metric the
fraction of samples whose relative error `(pred - truth) / truth`
has absolute value strictly below `0.10`. -/
theorem train_loop_evaluation {P G O : Type} (M : ModelAPI P G O)
    (fuel : Nat) (batches : Nat → RandStream) (es : RandStream)
    (n_iterations : Nat) (opt : O) (params : P) :
    (train_loop M fuel batches es n_iterations opt params).2.1 =
      (get_batch fuel 20000 es).2 ∧
    (train_loop M fuel batches es n_iterations opt params).2.1.length =
      20000 ∧
    (train_loop M fuel batches es n_iterations opt params).2.2.1 =
      (train_phase M fuel batches n_iterations opt params).2 ∧
    (train_loop M fuel batches es n_iterations opt params).1 =
      (M.fwd (train_phase M fuel batches n_iterations opt params).2 false
        (get_batch fuel 20000 es).1).map (fun y =>
          scale_target (target_mu spec_min_m spec_max_m)
            (target_sigma spec_min_m spec_max_m) y true) ∧
    (train_loop M fuel batches es n_iterations opt params).2.2.2 =
      ((eval_rel_err M fuel es
          (train_phase M fuel batches n_iterations opt params).2).countP
            (fun r => |r| < 1/10) : ℕ) /
        ((eval_rel_err M fuel es
          (train_phase M fuel batches n_iterations opt params).2).length :
            ℝ) := by
  simp only [train_loop, eval_rel_err]
  exact ⟨trivial, get_batch_mass_length fuel 20000 es, trivial, trivial,
    mean_indicator (1/10) _⟩

/-- C7: `train_step` returns the mean-squared-error loss of the model
output computed with the parameters before the update, and performs
exactly one `apply_gradients` update on the optimizer state and the
parameters. -/
theorem train_step_loss_and_update {P G O : Type} (M : ModelAPI P G O)
    (x : List (List ℝ)) (truth : List ℝ) (opt : O) (params : P) :
    (train_step M x truth opt params).1 =
      (List.zipWith (fun a b => (a - b) ^ 2) (M.fwd params true x)
        truth).sum /
      ((List.zipWith (fun a b => (a - b) ^ 2) (M.fwd params true x)
        truth).length : ℝ) ∧
    (train_step M x truth opt params).2 =
      M.applyGrads opt params (M.grad params x truth) :=
  ⟨rfl, rfl⟩

/-- A stream whose unit draws for the mass lie in `[0, 1)`, as the
draws behind `np.random.uniform` do. -/
def validUnit (s : RandStream) : Prop := ∀ i, 0 ≤ s.uM i ∧ s.uM i < 1

/-- C8: when `0 < min_m ≤ max_m`, every true mass returned by
`get_data` is at least `min_m`, hence strictly positive, and its real
image is a nonzero denominator for the relative-error division. -/
theorem get_data_mass_positive (fuel n : Nat) (min_p max_p min_m max_m : ℚ)
    (c : Bool) (s : RandStream) (h0 : 0 < min_m) (h1 : min_m ≤ max_m)
    (hv : validUnit s) :
    ∀ x ∈ (get_data fuel n min_p max_p min_m max_m c s).2,
      min_m ≤ x ∧ 0 < x ∧ (x : ℝ) ≠ 0 := by
  intro x hx
  simp only [get_data, List.mem_map, List.mem_range] at hx
  obtain ⟨i, hi, rfl⟩ := hx
  obtain ⟨hu0, hu1⟩ := hv i
  have hle : min_m ≤ mDraw min_m max_m s i := by
    unfold mDraw uniform
    nlinarith [mul_nonneg (by linarith : (0 : ℚ) ≤ max_m - min_m) hu0]
  have hpos : (0 : ℚ) < mDraw min_m max_m s i := lt_of_lt_of_le h0 hle
  exact ⟨hle, hpos, by exact_mod_cast hpos.ne'⟩

theorem validUnit_rsA : validUnit rsA := by
  intro i
  constructor
  · change (0 : ℚ) ≤ 1/2
    norm_num
  · change (1/2 : ℚ) < 1
    norm_num

/-- C8 witness at the configured range `[0.1, 100]` and the concrete
stream `rsA`. -/
theorem get_data_mass_positive_witness :
    ((0 : ℚ) < 1/10 ∧ (1/10 : ℚ) ≤ 100 ∧ validUnit rsA) ∧
    ∀ x ∈ (get_data 1 3 0 200 (1/10) 100 true rsA).2,
      (1/10 : ℚ) ≤ x ∧ 0 < x ∧ (x : ℝ) ≠ 0 :=
  ⟨⟨by norm_num, by norm_num, validUnit_rsA⟩,
    get_data_mass_positive 1 3 0 200 (1/10) 100 true rsA (by norm_num)
      (by norm_num) validUnit_rsA⟩

/-- C9: `get_data` is deterministic in its pseudorandom source — equal
streams give equal batches — and for every `n` the returned batch has
`n` rows of 4 entries each, paired with `n` true masses. -/
theorem get_data_deterministic_shape (fuel n : Nat)
    (min_p max_p min_m max_m : ℚ) (c : Bool) (s₁ s₂ : RandStream)
    (h : s₁ = s₂) :
    get_data fuel n min_p max_p min_m max_m c s₁ =
      get_data fuel n min_p max_p min_m max_m c s₂ ∧
    (get_data fuel n min_p max_p min_m max_m c s₁).1.length = n ∧
    (∀ row ∈ (get_data fuel n min_p max_p min_m max_m c s₁).1,
      row.length = 4) ∧
    (get_data fuel n min_p max_p min_m max_m c s₁).2.length = n := by
  subst h
  refine ⟨rfl, by simp [get_data], ?_, by simp [get_data]⟩
  intro row hrow
  simp only [get_data, List.mem_map, List.mem_range] at hrow
  obtain ⟨i, hi, rfl⟩ := hrow
  cases c <;> simp [sampleRow]

/-- C9 witness at a concrete input and stream. -/
theorem get_data_deterministic_shape_witness :
    (rsA = rsA) ∧
    (get_data 1 2 0 200 (1/10) 100 true rsA =
      get_data 1 2 0 200 (1/10) 100 true rsA ∧
    (get_data 1 2 0 200 (1/10) 100 true rsA).1.length = 2 ∧
    (∀ row ∈ (get_data 1 2 0 200 (1/10) 100 true rsA).1,
      row.length = 4) ∧
    (get_data 1 2 0 200 (1/10) 100 true rsA).2.length = 2) :=
  ⟨rfl, get_data_deterministic_shape 1 2 0 200 (1/10) 100 true rsA rsA rfl⟩

end MassRegression

namespace KerasApi

/-- C10: `FeatureScaling` is a pure stateless elementwise affine
transform: its output at each index is `(x - means) / stddevs`, the
output length is the zipped length, calling it returns the layer
unchanged (so the stored `means` and `stddevs` are untouched), the
layer is constructed non-trainable, and `build` creates no
variables. -/
theorem featureScaling_pure_affine (means stds x : List ℚ) (i : Nat)
    (h : i < min x.length (min means.length stds.length)) :
    ((FeatureScaling.init means stds).call x).1.getD i 0 =
      (x.getD i 0 - means.getD i 0) / stds.getD i 0 ∧
    ((FeatureScaling.init means stds).call x).2 =
      FeatureScaling.init means stds ∧
    (FeatureScaling.init means stds).trainable = false ∧
    (FeatureScaling.init means stds).buildVars = [] ∧
    ((FeatureScaling.init means stds).call x).1.length =
      min x.length (min means.length stds.length) := by
  have hlen : ((FeatureScaling.init means stds).call x).1.length =
      min x.length (min means.length stds.length) := by
    simp [FeatureScaling.call, FeatureScaling.init, List.length_zipWith,
      List.length_zip]
  refine ⟨?_, rfl, rfl, rfl, hlen⟩
  have hx : i < x.length :=
    lt_of_lt_of_le h (min_le_left _ _)
  have hm : i < means.length :=
    lt_of_lt_of_le h (le_trans (min_le_right _ _) (min_le_left _ _))
  have hs : i < stds.length :=
    lt_of_lt_of_le h (le_trans (min_le_right _ _) (min_le_right _ _))
  have hi : i < ((FeatureScaling.init means stds).call x).1.length := by
    rw [hlen]; exact h
  rw [List.getD_eq_getElem _ _ hi, List.getD_eq_getElem _ _ hx,
    List.getD_eq_getElem _ _ hm, List.getD_eq_getElem _ _ hs]
  simp only [FeatureScaling.call, FeatureScaling.init]
  rw [List.getElem_zipWith, List.getElem_zip]

/-- C10 witness: `means = [2]`, `stddevs = [4]`, `x = [10]`, index 0. -/
theorem featureScaling_pure_affine_witness :
    (0 < min [(10 : ℚ)].length
      (min [(2 : ℚ)].length [(4 : ℚ)].length)) ∧
    (((FeatureScaling.init [2] [4]).call [10]).1.getD 0 0 =
      ([(10 : ℚ)].getD 0 0 - [(2 : ℚ)].getD 0 0) / [(4 : ℚ)].getD 0 0 ∧
    ((FeatureScaling.init [2] [4]).call [10]).2 =
      FeatureScaling.init [2] [4] ∧
    (FeatureScaling.init [(2 : ℚ)] [4]).trainable = false ∧
    (FeatureScaling.init [(2 : ℚ)] [4]).buildVars = [] ∧
    ((FeatureScaling.init [2] [4]).call [10]).1.length =
      min [(10 : ℚ)].length (min [(2 : ℚ)].length [(4 : ℚ)].length)) :=
  ⟨by decide, featureScaling_pure_affine [2] [4] [10] 0 (by decide)⟩

end KerasApi

